import Mathlib

/-
Shallow embedding of the document extraction-and-linking pipeline of
`backend/app/ai/extractor.py` and `backend/app/ai/document_processor.py`.

Modelling conventions:
- Python values (the JSON-compatible data extracted from documents) are the
  inductive type `PyVal`.  Python floats are modelled as rationals (ℚ);
  float literals such as 0.95 are thus exact.
- Python dicts are association lists with insertion-order/overwrite
  semantics (`dictSet`).
- `datetime.strptime(s, fmt)` for the six formats used by the code is
  modelled by one parser per format, faithful to the corresponding
  `_strptime` regexes: `%Y` matches exactly four digits, `%m`/`%d` match one
  or two digits, month names are matched case-insensitively, and the
  resulting calendar date must be valid (correct day count per month,
  Gregorian leap years, year between 1 and 9999).  Whitespace runs in the
  month-name formats are modelled as a single space.
- `strftime("%Y-%m-%d")` zero-pads month and day and prints the year
  without padding (glibc behaviour).
-/

mutual

/-- Python/JSON values.  `none` is Python `None` / JSON `null`.  Lists and
dicts are given by the companion types `PyList`/`PyDict` so that equality
stays decidable. -/
inductive PyVal where
  | none : PyVal
  | bool (b : Bool) : PyVal
  | int (n : Int) : PyVal
  | float (q : ℚ) : PyVal
  | str (s : String) : PyVal
  | list (l : PyList) : PyVal
  | dict (d : PyDict) : PyVal
  deriving DecidableEq, Repr

/-- A Python list of `PyVal`s. -/
inductive PyList where
  | nil : PyList
  | cons (hd : PyVal) (tl : PyList) : PyList
  deriving DecidableEq, Repr

/-- A Python dict with string keys and `PyVal` values, in insertion order. -/
inductive PyDict where
  | nil : PyDict
  | cons (key : String) (val : PyVal) (tl : PyDict) : PyDict
  deriving DecidableEq, Repr

end

/-- The entries of a `PyDict` as an association list. -/
def PyDict.toList : PyDict → List (String × PyVal)
  | PyDict.nil => []
  | PyDict.cons k v t => (k, v) :: t.toList

/-- Build a `PyDict` from an association list. -/
def PyDict.ofList : List (String × PyVal) → PyDict
  | [] => PyDict.nil
  | (k, v) :: t => PyDict.cons k v (PyDict.ofList t)

/-- Python truthiness (`bool(v)`): None, False, 0, 0.0, "", [], {} are falsy. -/
def py_truthy : PyVal → Bool
  | PyVal.none => false
  | PyVal.bool b => b
  | PyVal.int n => decide (n ≠ 0)
  | PyVal.float q => decide (q ≠ 0)
  | PyVal.str s => !s.isEmpty
  | PyVal.list l => !(l == PyList.nil)
  | PyVal.dict d => !(d == PyDict.nil)

/-- Python `d[k] = v`: overwrite in place if the key exists, else append. -/
def dictSet {α : Type} (d : List (String × α)) (k : String) (v : α) :
    List (String × α) :=
  if d.any (fun p => p.1 == k) then
    d.map (fun p => if p.1 == k then (k, v) else p)
  else d ++ [(k, v)]

/-- Python `d.get(k)` (returns `None` when the key is absent). -/
def pyGet (d : List (String × PyVal)) (k : String) : PyVal :=
  match d.find? (fun p => p.1 == k) with
  | some p => p.2
  | Option.none => PyVal.none

/-- Python `d.get(k)` for an arbitrary value type, as an `Option`. -/
def dictGet {α : Type} (d : List (String × α)) (k : String) : Option α :=
  (d.find? (fun p => p.1 == k)).map (fun p => p.2)

/-! ### Digit strings -/

/-- Numeric value of a decimal digit character. -/
def charVal (c : Char) : Nat := c.toNat - 48

/-- Big-endian numeric value of a digit string (how `int(s)` reads it). -/
def digitsVal (cs : List Char) : Nat :=
  cs.foldl (fun n c => n * 10 + charVal c) 0

/-- The decimal digit character for `n < 10`. -/
def digitChar10 (n : Nat) : Char := Char.ofNat (48 + n)

/-- Decimal representation, most significant digit first, with explicit
fuel (`fuel ≥ n` suffices) so that it reduces inside the kernel. -/
def natCharsAux : Nat → Nat → List Char
  | 0, _ => []
  | _ + 1, 0 => []
  | fuel + 1, n + 1 =>
    natCharsAux fuel ((n + 1) / 10) ++ [digitChar10 ((n + 1) % 10)]

/-- Decimal representation of a natural number, most significant digit
first (how `"%d" % n` prints it; empty for 0, which never arises here). -/
def natChars (n : Nat) : List Char := natCharsAux n n

/-- Two-digit zero-padded decimal (strftime `%m` / `%d`). -/
def pad2 (n : Nat) : List Char :=
  if n < 10 then '0' :: natChars n else natChars n

/-! ### Calendar -/

/-- Gregorian leap year test (as in Python's `datetime`). -/
def isLeap (y : Nat) : Bool := y % 4 == 0 && (y % 100 != 0 || y % 400 == 0)

/-- Days in a month (as in Python's `datetime`). -/
def daysInMonth (y m : Nat) : Nat :=
  if m == 2 then (if isLeap y then 29 else 28)
  else if m == 4 || m == 6 || m == 9 || m == 11 then 30
  else 31

/-- Validity of a (year, month, day) triple for Python's `datetime.date`
constructor: year in [1, 9999], month in [1, 12], day within the month. -/
def validYmd (y m d : Nat) : Bool :=
  1 ≤ y && y ≤ 9999 && 1 ≤ m && m ≤ 12 && 1 ≤ d && d ≤ daysInMonth y m

/-- A parsed calendar date. -/
structure Ymd where
  year : Nat
  month : Nat
  day : Nat
  deriving DecidableEq, Repr

/-! ### strptime, one parser per format string used by the source -/

/-- Split a character list at every occurrence of `sep` (the separators are
dropped; `n` separators produce `n+1` chunks). -/
def splitC (sep : Char) : List Char → List (List Char)
  | [] => [[]]
  | c :: cs =>
    let r := splitC sep cs
    if c = sep then [] :: r
    else
      match r with
      | [] => [[c]]
      | h :: t => (c :: h) :: t

/-- `%Y`: exactly four decimal digits (the `_strptime` regex for `%Y`). -/
def yearTok (cs : List Char) : Option Nat :=
  if cs.length == 4 && cs.all Char.isDigit then some (digitsVal cs) else none

/-- `%m` / `%d`: one or two decimal digits. -/
def twoTok (cs : List Char) : Option Nat :=
  if (cs.length == 1 || cs.length == 2) && cs.all Char.isDigit then
    some (digitsVal cs)
  else none

/-- Final validation step of strptime: Python's `datetime.date`
constructor accepts the triple or raises `ValueError`. -/
def mkYmd (y m d : Nat) : Option Ymd :=
  if validYmd y m d then some ⟨y, m, d⟩ else none

/-- `datetime.strptime(s, "%Y-%m-%d")`. -/
def strptimeYmdDash (cs : List Char) : Option Ymd :=
  match splitC '-' cs with
  | [ys, ms, ds] =>
    match yearTok ys, twoTok ms, twoTok ds with
    | some y, some m, some d => mkYmd y m d
    | _, _, _ => none
  | _ => none

/-- `datetime.strptime(s, "%m/%d/%Y")`. -/
def strptimeMdySlash (cs : List Char) : Option Ymd :=
  match splitC '/' cs with
  | [ms, ds, ys] =>
    match yearTok ys, twoTok ms, twoTok ds with
    | some y, some m, some d => mkYmd y m d
    | _, _, _ => none
  | _ => none

/-- `datetime.strptime(s, "%m-%d-%Y")`. -/
def strptimeMdyDash (cs : List Char) : Option Ymd :=
  match splitC '-' cs with
  | [ms, ds, ys] =>
    match yearTok ys, twoTok ms, twoTok ds with
    | some y, some m, some d => mkYmd y m d
    | _, _, _ => none
  | _ => none

/-- `datetime.strptime(s, "%d/%m/%Y")` (day-first). -/
def strptimeDmySlash (cs : List Char) : Option Ymd :=
  match splitC '/' cs with
  | [ds, ms, ys] =>
    match yearTok ys, twoTok ms, twoTok ds with
    | some y, some m, some d => mkYmd y m d
    | _, _, _ => none
  | _ => none

/-- Full English month names, lower case (strptime matches them
case-insensitively). -/
def monthNamesFull : List (List Char) :=
  ["january".data, "february".data, "march".data, "april".data, "may".data,
   "june".data, "july".data, "august".data, "september".data,
   "october".data, "november".data, "december".data]

/-- Abbreviated English month names, lower case. -/
def monthNamesAbbr : List (List Char) :=
  ["jan".data, "feb".data, "mar".data, "apr".data, "may".data, "jun".data,
   "jul".data, "aug".data, "sep".data, "oct".data, "nov".data, "dec".data]

/-- Month number (1-12) from a name token, case-insensitive. -/
def monthFromName (names : List (List Char)) (tok : List Char) : Option Nat :=
  match names.findIdx? (fun n => n == tok.map Char.toLower) with
  | some i => some (i + 1)
  | Option.none => none

/-- `datetime.strptime(s, "%B %d, %Y")` or `"%b %d, %Y"`, given the month
name table.  Whitespace runs are modelled as a single space. -/
def strptimeMonthName (names : List (List Char)) (cs : List Char) :
    Option Ymd :=
  match splitC ',' cs with
  | [pre, post] =>
    match splitC ' ' pre with
    | [nameTok, dayTok] =>
      match post with
      | ' ' :: ytok =>
        match monthFromName names nameTok, twoTok dayTok, yearTok ytok with
        | some m, some d, some y => mkYmd y m d
        | _, _, _ => none
      | _ => none
    | _ => none
  | _ => none

/-- The `formats` loop of `LLMExtractor._clean_value`: try
`["%Y-%m-%d", "%m/%d/%Y", "%m-%d-%Y", "%d/%m/%Y", "%B %d, %Y", "%b %d, %Y"]`
in order; the first format that parses wins. -/
def tryFormats (cs : List Char) : Option Ymd :=
  match strptimeYmdDash cs with
  | some d => some d
  | Option.none =>
  match strptimeMdySlash cs with
  | some d => some d
  | Option.none =>
  match strptimeMdyDash cs with
  | some d => some d
  | Option.none =>
  match strptimeDmySlash cs with
  | some d => some d
  | Option.none =>
  match strptimeMonthName monthNamesFull cs with
  | some d => some d
  | Option.none => strptimeMonthName monthNamesAbbr cs

/-- `dt.strftime("%Y-%m-%d")`: zero-padded month and day, unpadded year. -/
def strftimeYmd (d : Ymd) : List Char :=
  natChars d.year ++ '-' :: (pad2 d.month ++ '-' :: pad2 d.day)

/-! ### Python `float(s)` (on a rational model of floats) -/

/-- Longest prefix of decimal digits, with the rest. -/
def takeDigits (cs : List Char) : List Char × List Char :=
  (cs.takeWhile Char.isDigit, cs.dropWhile Char.isDigit)

/-- Fractional value of a digit string: `digits / 10^len`. -/
def fracVal (cs : List Char) : ℚ :=
  (digitsVal cs : ℚ) / (10 : ℚ) ^ cs.length

/-- Python `float(s)` on the fragment `[+-]? digits [. digits]?
[(e|E) [+-]? digits]?` (at least one mantissa digit required); other
inputs — including `inf`/`nan`, embedded underscores and surrounding
whitespace, which never arise in this pipeline — are modelled as
unparsable. -/
def pyFloat (cs : List Char) : Option ℚ :=
  let signAndRest : Bool × List Char :=
    match cs with
    | c :: t => if c = '-' then (true, t) else if c = '+' then (false, t) else (false, cs)
    | [] => (false, [])
  let neg := signAndRest.1
  let cs1 := signAndRest.2
  let ipRest := takeDigits cs1
  let ip := ipRest.1
  let fpRest : List Char × List Char :=
    match ipRest.2 with
    | c :: t => if c = '.' then takeDigits t else ([], ipRest.2)
    | [] => ([], [])
  let fp := fpRest.1
  let hadDot : Bool := match ipRest.2 with
    | c :: _ => c = '.'
    | [] => false
  if ip.isEmpty && fp.isEmpty then none
  else
    let mant : ℚ := (digitsVal ip : ℚ) + fracVal fp
    let mant : ℚ := if neg then -mant else mant
    let rest := if hadDot then fpRest.2 else ipRest.2
    match rest with
    | [] => some mant
    | c :: t =>
      if c = 'e' || c = 'E' then
        let esignAndRest : Bool × List Char :=
          match t with
          | c2 :: t2 =>
            if c2 = '-' then (true, t2)
            else if c2 = '+' then (false, t2) else (false, t)
          | [] => (false, [])
        let epRest := takeDigits esignAndRest.2
        if epRest.1.isEmpty || !epRest.2.isEmpty then none
        else
          let e : Int := if esignAndRest.1 then -(digitsVal epRest.1 : Int)
                         else (digitsVal epRest.1 : Int)
          some (mant * (10 : ℚ) ^ e)
      else none

/-! ### `LLMExtractor._clean_value` -/

/-- `value.lower() in ("true", "yes", "1", "x", "checked")`. -/
def boolStrTrue (s : String) : Bool :=
  let l := s.data.map Char.toLower
  l == "true".data || l == "yes".data || l == "1".data || l == "x".data ||
    l == "checked".data

/-- `LLMExtractor._clean_value(value, field_type)` (extractor.py:241-282):
type-directed normalization of one extracted value. -/
def _clean_value (value : PyVal) (field_type : String) : PyVal :=
  match value with
  | PyVal.none => PyVal.none
  | v =>
    if field_type == "number" then
      match v with
      | PyVal.str s =>
        let cleaned := s.data.filter (fun c => !(c == '$' || c == ','))
        match pyFloat cleaned with
        | some q => PyVal.float q
        | Option.none => PyVal.none
      | _ => v
    else if field_type == "date" then
      match v with
      | PyVal.str s =>
        match tryFormats s.data with
        | some d => PyVal.str (String.mk (strftimeYmd d))
        | Option.none => v
      | _ => v
    else if field_type == "boolean" then
      match v with
      | PyVal.str s => PyVal.bool (boolStrTrue s)
      | _ => PyVal.bool (py_truthy v)
    else v

/-! ### A model of Python `json.loads`

Strict JSON with objects, arrays, strings (with the single-character
escapes), numbers, `true`/`false`/`null`.  Unicode escapes (`\uXXXX`) are
modelled as unparsable; they never arise in this development.  A JSON
number without fraction or exponent loads as a Python `int`, otherwise as
a float.  `json.loads` raises `JSONDecodeError` on any non-JSON input,
including trailing data; the model returns `Option.none` there. -/

/-- The `{` character, written via its code point. -/
def lbrace : Char := Char.ofNat 123

/-- The `}` character, written via its code point. -/
def rbrace : Char := Char.ofNat 125

/-- Skip JSON whitespace. -/
def skipWs : List Char → List Char
  | [] => []
  | c :: cs =>
    if c = ' ' || c = '\t' || c = '\n' || c = '\r' then skipWs cs else c :: cs

/-- JSON string escapes (after a backslash). -/
def escChar (c : Char) : Option Char :=
  if c = '"' then some '"'
  else if c = '\\' then some '\\'
  else if c = '/' then some '/'
  else if c = 'n' then some '\n'
  else if c = 't' then some '\t'
  else if c = 'r' then some '\r'
  else if c = 'b' then some (Char.ofNat 8)
  else if c = 'f' then some (Char.ofNat 12)
  else none

/-- Body of a JSON string, after the opening quote: returns the decoded
characters and the remainder after the closing quote. -/
def jstrChars : List Char → Option (List Char × List Char)
  | [] => none
  | c :: cs =>
    if c = '"' then some ([], cs)
    else if c = '\\' then
      match cs with
      | [] => none
      | e :: cs2 =>
        match escChar e with
        | some r =>
          match jstrChars cs2 with
          | some p => some (r :: p.1, p.2)
          | none => none
        | none => none
    else
      match jstrChars cs with
      | some p => some (c :: p.1, p.2)
      | none => none

/-- A JSON number: `-? int frac? exp?` with a strict integer part (no
leading zeros).  Returns the value and whether it is integral. -/
def parseJNumber (cs : List Char) : Option (PyVal × List Char) :=
  let signAndRest : Bool × List Char :=
    match cs with
    | c :: t => if c = '-' then (true, t) else (false, cs)
    | [] => (false, [])
  let neg := signAndRest.1
  let cs1 := signAndRest.2
  let ipRest := takeDigits cs1
  let ip := ipRest.1
  if ip.isEmpty then none
  else if ip.length > 1 && ip.headD ' ' = '0' then none
  else
    let fpRest : Option (List Char × List Char) :=
      match ipRest.2 with
      | c :: t =>
        if c = '.' then
          let r := takeDigits t
          if r.1.isEmpty then none else some r
        else some ([], ipRest.2)
      | [] => some ([], [])
    match fpRest with
    | none => none
    | some (fp, rest1) =>
      let expRest : Option (Int × List Char) :=
        match rest1 with
        | c :: t =>
          if c = 'e' || c = 'E' then
            let esign : Bool × List Char :=
              match t with
              | c2 :: t2 =>
                if c2 = '-' then (true, t2)
                else if c2 = '+' then (false, t2)
                else (false, t)
              | [] => (false, [])
            let r := takeDigits esign.2
            if r.1.isEmpty then none
            else some ((if esign.1 then -(digitsVal r.1 : Int)
                        else (digitsVal r.1 : Int)), r.2)
          else some (0, rest1)
        | [] => some (0, [])
      match expRest with
      | none => none
      | some (e, rest2) =>
        if fp.isEmpty && e = 0 &&
            (match rest1 with
             | c :: _ => !(c = 'e' || c = 'E')
             | [] => true) then
          let v : Int := if neg then -(digitsVal ip : Int) else (digitsVal ip : Int)
          some (PyVal.int v, rest2)
        else
          let mant : ℚ := (digitsVal ip : ℚ) + fracVal fp
          let mant : ℚ := if neg then -mant else mant
          some (PyVal.float (mant * (10 : ℚ) ^ e), rest2)

mutual

/-- One JSON value at the head of the input (leading whitespace already
skipped); returns the value and the unconsumed remainder. -/
def parseJValue : Nat → List Char → Option (PyVal × List Char)
  | 0, _ => none
  | _ + 1, [] => none
  | fuel + 1, c :: rest =>
    if c = '"' then
      match jstrChars rest with
      | some p => some (PyVal.str (String.mk p.1), p.2)
      | none => none
    else if c = lbrace then
      match skipWs rest with
      | c2 :: rest2 =>
        if c2 = rbrace then some (PyVal.dict PyDict.nil, rest2)
        else parseJMembers fuel [] (c2 :: rest2)
      | [] => none
    else if c = '[' then
      match skipWs rest with
      | c2 :: rest2 =>
        if c2 = ']' then some (PyVal.list PyList.nil, rest2)
        else parseJItems fuel [] (c2 :: rest2)
      | [] => none
    else if c = 't' then
      match rest with
      | 'r' :: 'u' :: 'e' :: r => some (PyVal.bool true, r)
      | _ => none
    else if c = 'f' then
      match rest with
      | 'a' :: 'l' :: 's' :: 'e' :: r => some (PyVal.bool false, r)
      | _ => none
    else if c = 'n' then
      match rest with
      | 'u' :: 'l' :: 'l' :: r => some (PyVal.none, r)
      | _ => none
    else parseJNumber (c :: rest)

/-- Object members, accumulating entries with Python-dict overwrite
semantics for duplicate keys; positioned at the start of a `"key"`. -/
def parseJMembers : Nat → List (String × PyVal) →
    List Char → Option (PyVal × List Char)
  | 0, _, _ => none
  | fuel + 1, acc, cs =>
    match cs with
    | '"' :: r1 =>
      match jstrChars r1 with
      | some kp =>
        (match skipWs kp.2 with
         | ':' :: r2 =>
           match parseJValue fuel (skipWs r2) with
           | some vp =>
             let acc2 := dictSet acc (String.mk kp.1) vp.1
             (match skipWs vp.2 with
              | c :: r3 =>
                if c = ',' then
                  match skipWs r3 with
                  | '"' :: _ => parseJMembers fuel acc2 (skipWs r3)
                  | _ => none
                else if c = rbrace then
                  some (PyVal.dict (PyDict.ofList acc2), r3)
                else none
              | [] => none)
           | none => none
         | _ => none)
      | none => none
    | _ => none

/-- Array items; positioned at the start of a value. -/
def parseJItems : Nat → List PyVal → List Char → Option (PyVal × List Char)
  | 0, _, _ => none
  | fuel + 1, acc, cs =>
    match parseJValue fuel cs with
    | some vp =>
      let acc2 := acc ++ [vp.1]
      (match skipWs vp.2 with
       | c :: r =>
         if c = ',' then parseJItems fuel acc2 (skipWs r)
         else if c = ']' then
           some (PyVal.list (acc2.foldr PyList.cons PyList.nil), r)
         else none
       | [] => none)
    | none => none

end

/-- `json.loads` on a character list: parse one value and require the
remainder to be whitespace only (otherwise Python raises "Extra data"). -/
def jsonLoadsC (cs : List Char) : Option PyVal :=
  match parseJValue (cs.length + 1) (skipWs cs) with
  | some p => if skipWs p.2 = [] then some p.1 else none
  | none => none

/-- `json.loads(s)`; `Option.none` models a raised `JSONDecodeError`. -/
def json_loads (s : String) : Option PyVal := jsonLoadsC s.data

/-! ### `extractor.py` -/

/-- The settings consumed by the pipeline (`app/config/settings.py`):
`openai_api_key: Optional[str] = None`,
`extraction_confidence_threshold: float = 0.8`,
`local_storage_path: str = "./storage"`. -/
structure Settings where
  openai_api_key : Option String
  extraction_confidence_threshold : ℚ
  local_storage_path : String

/-- Python truthiness of an optional string (`None` and `""` are falsy). -/
def optStrFalsy : Option String → Bool
  | Option.none => true
  | some s => s.isEmpty

/-- `ExtractionResult` (extractor.py:12-41). -/
structure ExtractionResult where
  data : List (String × PyVal)
  confidence : ℚ
  field_confidences : List (String × ℚ)
  raw_response : String
  errors : List String

/-- `ExtractionResult.needs_review` (extractor.py:29-32):
`self.confidence < settings.extraction_confidence_threshold`. -/
def ExtractionResult.needs_review (st : Settings) (r : ExtractionResult) : Bool :=
  decide (r.confidence < st.extraction_confidence_threshold)

/-- Index of the first occurrence of `c`. -/
def firstIdx (c : Char) (cs : List Char) : Option Nat :=
  cs.findIdx? (fun x => x == c)

/-- Index of the last occurrence of `c`. -/
def lastIdx (c : Char) (cs : List Char) : Option Nat :=
  match (cs.reverse).findIdx? (fun x => x == c) with
  | some i => some (cs.length - 1 - i)
  | Option.none => none

/-- `re.search(r'\x7b.*\x7d', raw, re.DOTALL)`: the leftmost-then-greedy
match runs from the first `{` to the last `}` (when the latter comes
after the former); there is no match otherwise. -/
def greedyBraceSpan (cs : List Char) : Option (List Char) :=
  match firstIdx lbrace cs, lastIdx rbrace cs with
  | some i, some j => if i < j then some ((cs.drop i).take (j - i + 1)) else none
  | _, _ => none

/-- `LLMExtractor._parse_response` (extractor.py:148-157).  `Except.error`
models an uncaught `JSONDecodeError` escaping the method (the inner
`json.loads(json_match.group())` is not guarded). -/
def _parse_response (raw : String) : Except String PyVal :=
  match json_loads raw with
  | some v => Except.ok v
  | Option.none =>
    match greedyBraceSpan raw.data with
    | some span =>
      match jsonLoadsC span with
      | some v => Except.ok v
      | Option.none => Except.error "JSONDecodeError"
    | Option.none => Except.ok (PyVal.dict PyDict.nil)

deriving instance DecidableEq for Except

/-- One expected-field definition, as built by
`DocumentProcessor._extract_data`: `{"name": …, "type": …, "required": …}`. -/
structure FieldDef where
  name : String
  type : String
  required : Bool
  deriving DecidableEq, Repr

/-- `LLMExtractor._is_valid_date` (extractor.py:203-211): a string that
`datetime.strptime(value, "%Y-%m-%d")` accepts. -/
def _is_valid_date (value : PyVal) : Bool :=
  match value with
  | PyVal.str s =>
    match strptimeYmdDash s.data with
    | some _ => true
    | Option.none => false
  | _ => false

/-- `LLMExtractor._validate_field_type` (extractor.py:186-201).  Note that
Python's `bool` is a subclass of `int`, so `isinstance(v, (int, float))`
also accepts booleans. -/
def _validate_field_type (value : PyVal) (expected_type : String) : Bool :=
  match value with
  | PyVal.none => true
  | _ =>
    if expected_type == "string" then
      (match value with | PyVal.str _ => true | _ => false)
    else if expected_type == "text" then
      (match value with | PyVal.str _ => true | _ => false)
    else if expected_type == "number" then
      (match value with
       | PyVal.int _ => true
       | PyVal.float _ => true
       | PyVal.bool _ => true
       | _ => false)
    else if expected_type == "date" then _is_valid_date value
    else if expected_type == "boolean" then
      (match value with | PyVal.bool _ => true | _ => false)
    else if expected_type == "array" then
      (match value with | PyVal.list _ => true | _ => false)
    else true

/-- `LLMExtractor._calculate_field_confidences` (extractor.py:159-184). -/
def _calculate_field_confidences (data : List (String × PyVal))
    (expected_fields : List FieldDef) : List (String × ℚ) :=
  expected_fields.foldl
    (fun confidences field =>
      let value := pyGet data field.name
      let c : ℚ :=
        if value = PyVal.none then
          (if field.required then 3/10 else 8/10)
        else if _validate_field_type value field.type then 95/100
        else 5/10
      dictSet confidences field.name c)
    []

/-- `LLMExtractor._calculate_overall_confidence` (extractor.py:213-219). -/
def _calculate_overall_confidence (field_confidences : List (String × ℚ)) : ℚ :=
  if field_confidences.isEmpty then 0
  else ((field_confidences.map (fun p => p.2)).sum) / field_confidences.length

/-- `LLMExtractor._clean_extracted_data` (extractor.py:221-239). -/
def _clean_extracted_data (data : List (String × PyVal))
    (expected_fields : List FieldDef) : List (String × PyVal) :=
  expected_fields.foldl
    (fun cleaned field =>
      let value := pyGet data field.name
      if value ≠ PyVal.none then
        dictSet cleaned field.name (_clean_value value field.type)
      else
        dictSet cleaned field.name PyVal.none)
    []

/-- `LLMExtractor.extract` (extractor.py:61-129).  The language-model call
is an oracle: `llm = Except.ok raw` models a transport-level success with
raw response `raw`, `llm = Except.error e` a caught transport/auth
exception with message `e`.  A response whose top level is not a JSON
object makes the subsequent `data.get` calls raise; that `AttributeError`
is caught by the same `except Exception` handler. -/
def extract (st : Settings) (llm : Except String String) (text : String)
    (extraction_prompt : String) (expected_fields : List FieldDef) :
    ExtractionResult :=
  if optStrFalsy st.openai_api_key then
    ⟨[], 0, [], "", ["OpenAI API key not configured"]⟩
  else
    match llm with
    | Except.error e => ⟨[], 0, [], "", [e]⟩
    | Except.ok raw =>
      match _parse_response raw with
      | Except.error e => ⟨[], 0, [], "", [e]⟩
      | Except.ok v =>
        match v with
        | PyVal.dict d =>
          let extracted_data := d.toList
          let field_confidences :=
            _calculate_field_confidences extracted_data expected_fields
          let overall_confidence :=
            _calculate_overall_confidence field_confidences
          let cleaned_data :=
            _clean_extracted_data extracted_data expected_fields
          ⟨cleaned_data, overall_confidence, field_confidences, raw, []⟩
        | _ => ⟨[], 0, [], "", ["AttributeError: no attribute get"]⟩

/-! ### `document_processor.py` -/

/-- `DocumentStatus` (models/document.py). -/
inductive DocumentStatus where
  | uploaded : DocumentStatus
  | processing : DocumentStatus
  | processed : DocumentStatus
  | failed : DocumentStatus
  | needs_review : DocumentStatus
  deriving DecidableEq, Repr

/-- `RequirementStatus` (models/requirement.py). -/
inductive RequirementStatus where
  | pending : RequirementStatus
  | in_progress : RequirementStatus
  | compliant : RequirementStatus
  | expiring_soon : RequirementStatus
  | expired : RequirementStatus
  | non_compliant : RequirementStatus
  | waived : RequirementStatus
  deriving DecidableEq, Repr

/-- The extraction schema of a `DocumentType`: its JSON `properties` map
(field name → declared type, absent when the `type` key is missing) and
its `required` name list (missing key modelled as `[]`). -/
structure ExtractionSchema where
  properties : Option (List (String × Option String))
  required : List String
  deriving DecidableEq, Repr

/-- `DocumentType` (models/document.py), the fields the pipeline reads. -/
structure DocumentType where
  id : Nat
  code : String
  extraction_prompt : Option String
  extraction_schema : Option ExtractionSchema
  deriving DecidableEq, Repr

/-- `Document` (models/document.py), the fields the pipeline reads/writes.
Ids are modelled as naturals. -/
structure Document where
  id : Nat
  entity_id : Option Nat
  document_type_id : Option Nat
  storage_path : String
  mime_type : String
  status : DocumentStatus
  raw_text : Option String
  extracted_data : Option (List (String × PyVal))
  extraction_confidence : Option ℚ
  field_confidences : Option (List (String × ℚ))
  processing_error : Option String
  processed_at : Option Nat

/-- `RequirementType` (models/requirement.py), the fields the linker reads. -/
structure RequirementType where
  id : Nat
  required_document_types : List String
  deriving DecidableEq, Repr

/-- `Requirement` (models/requirement.py), the fields the linker
reads/writes. -/
structure Requirement where
  id : Nat
  entity_id : Nat
  requirement_type_id : Nat
  status : RequirementStatus
  due_date : Option Ymd
  document_id : Option Nat
  deriving DecidableEq, Repr

/-- The database state the pipeline touches: one row list per table. -/
structure DBState where
  documents : List Document
  document_types : List DocumentType
  requirement_types : List RequirementType
  requirements : List Requirement

/-- `db.query(Document).filter(Document.id == id).first()`. -/
def lookupDoc (db : DBState) (document_id : Nat) : Option Document :=
  db.documents.find? (fun d => d.id == document_id)

/-- Write back a document row by id. -/
def storeDoc (db : DBState) (doc : Document) : DBState :=
  { db with documents := db.documents.map (fun d => if d.id == doc.id then doc else d) }

/-- Write back a requirement row by id. -/
def storeReq (db : DBState) (req : Requirement) : DBState :=
  { db with requirements := db.requirements.map (fun r => if r.id == req.id then req else r) }

/-- `DocumentProcessingResult` (document_processor.py:18-39). -/
structure DocumentProcessingResult where
  success : Bool
  document_id : Nat
  raw_text : String
  extracted_data : List (String × PyVal)
  confidence : ℚ
  field_confidences : List (String × ℚ)
  errors : List String
  linked_requirement_id : Option Nat

/-- The environment of one processing attempt: the filesystem and the two
engine calls, as oracles, plus the wall clock.  `ocr` takes the file path
and mime type; an `Except.error` models a raised condition (engine
unavailable, unsupported type, dependency missing).  `llm` is the
chat-completion call of `LLMExtractor.extract`. -/
structure Oracle where
  file_exists : String → Bool
  ocr : String → String → Except String String
  llm : Except String String
  now : Nat

/-- `os.path.join(settings.local_storage_path, document.storage_path)`. -/
def filePath (st : Settings) (doc : Document) : String :=
  st.local_storage_path ++ "/" ++ doc.storage_path

/-- `DocumentProcessor._extract_text` (document_processor.py:116-124). -/
def _extract_text (st : Settings) (or : Oracle) (doc : Document) :
    Except String String :=
  let path := filePath st doc
  if !(or.file_exists path) then
    Except.error ("Document file not found: " ++ path)
  else or.ocr path doc.mime_type

/-- `DocumentProcessor._get_document_type` (document_processor.py:126-132). -/
def _get_document_type (db : DBState) (doc : Document) : Option DocumentType :=
  match doc.document_type_id with
  | some tid => db.document_types.find? (fun dt => dt.id == tid)
  | Option.none => Option.none

/-- Expected-field derivation inside `DocumentProcessor._extract_data`
(document_processor.py:148-156). -/
def deriveExpectedFields (dt : DocumentType) : List FieldDef :=
  match dt.extraction_schema with
  | some sch =>
    match sch.properties with
    | some props =>
      props.map (fun p =>
        ⟨p.1, (match p.2 with | some t => t | Option.none => "string"),
         sch.required.contains p.1⟩)
    | Option.none => []
  | Option.none => []

/-- `DocumentProcessor._extract_data` (document_processor.py:134-162). -/
def _extract_data (st : Settings) (llm : Except String String)
    (raw_text : String) (doc_type : Option DocumentType) : ExtractionResult :=
  match doc_type with
  | Option.none =>
    ⟨[], 0, [], "", ["No extraction configuration for this document type"]⟩
  | some dt =>
    if optStrFalsy dt.extraction_prompt then
      ⟨[], 0, [], "", ["No extraction configuration for this document type"]⟩
    else
      extract st llm raw_text
        (match dt.extraction_prompt with | some p => p | Option.none => "")
        (deriveExpectedFields dt)

/-- `DocumentProcessor._update_document` (document_processor.py:164-183). -/
def _update_document (st : Settings) (doc : Document) (raw_text : String)
    (extraction_result : ExtractionResult) (now : Nat) : Document :=
  { doc with
    raw_text := some raw_text
    extracted_data := some extraction_result.data
    extraction_confidence := some extraction_result.confidence
    field_confidences := some extraction_result.field_confidences
    processed_at := some now
    processing_error :=
      if !extraction_result.errors.isEmpty then
        some (String.intercalate "; " extraction_result.errors)
      else Option.none
    status :=
      if !extraction_result.errors.isEmpty && extraction_result.data.isEmpty then
        DocumentStatus.failed
      else if extraction_result.needs_review st then
        DocumentStatus.needs_review
      else DocumentStatus.processed }

/-- The on-match tail of `DocumentProcessor._link_to_requirement`
(document_processor.py:229-246): link the document, opportunistically
update the due date from `expiration_date`, promote the status when the
confidence clears the threshold, and return the requirement id. -/
def link_on_match (st : Settings) (requirement : Requirement)
    (document_id : Nat) (extraction_result : ExtractionResult) :
    Requirement × Nat :=
  let req1 := { requirement with document_id := some document_id }
  let expiration_date := pyGet extraction_result.data "expiration_date"
  let req2 :=
    if py_truthy expiration_date then
      match expiration_date with
      | PyVal.str s =>
        match strptimeYmdDash s.data with
        | some d => { req1 with due_date := some d }
        | Option.none => req1
      | _ => req1
    else req1
  let req3 :=
    if decide (st.extraction_confidence_threshold ≤ extraction_result.confidence) then
      { req2 with status := RequirementStatus.compliant }
    else req2
  (req3, requirement.id)

/-- `DocumentProcessor._link_to_requirement` (document_processor.py:185-246). -/
def _link_to_requirement (st : Settings) (db : DBState) (document : Document)
    (extraction_result : ExtractionResult) : DBState × Option Nat :=
  match document.entity_id, document.document_type_id with
  | some entity_id, some _ =>
    (match _get_document_type db document with
     | Option.none => (db, Option.none)
     | some doc_type =>
       let req_types := db.requirement_types.filter
         (fun rt => rt.required_document_types.contains doc_type.code)
       if req_types.isEmpty then (db, Option.none)
       else
         let req_type_ids := req_types.map (fun rt => rt.id)
         match db.requirements.find? (fun r =>
             r.entity_id == entity_id &&
             req_type_ids.contains r.requirement_type_id &&
             (r.status == RequirementStatus.pending ||
              r.status == RequirementStatus.expiring_soon ||
              r.status == RequirementStatus.expired)) with
         | Option.none => (db, Option.none)
         | some requirement =>
           let p := link_on_match st requirement document.id extraction_result
           (storeReq db p.1, some p.2))
  | _, _ => (db, Option.none)

/-- `DocumentProcessor.process_document` (document_processor.py:50-114). -/
def process_document (st : Settings) (or : Oracle) (db : DBState)
    (document_id : Nat) : DBState × DocumentProcessingResult :=
  match lookupDoc db document_id with
  | Option.none =>
    (db, ⟨false, document_id, "", [], 0, [], ["Document not found"], Option.none⟩)
  | some document =>
    let document := { document with status := DocumentStatus.processing }
    let db := storeDoc db document
    match _extract_text st or document with
    | Except.error e =>
      let document :=
        { document with status := DocumentStatus.failed, processing_error := some e }
      (storeDoc db document,
       ⟨false, document_id, "", [], 0, [], [e], Option.none⟩)
    | Except.ok raw_text =>
      let doc_type := _get_document_type db document
      let extraction_result := _extract_data st or.llm raw_text doc_type
      let document := _update_document st document raw_text extraction_result or.now
      let db := storeDoc db document
      let linked :=
        if !extraction_result.data.isEmpty && document.entity_id.isSome then
          _link_to_requirement st db document extraction_result
        else (db, Option.none)
      (linked.1,
       ⟨true, document_id, raw_text, extraction_result.data,
        extraction_result.confidence, extraction_result.field_confidences,
        extraction_result.errors, linked.2⟩)

/-- The date formats the specification LISTS, in the spec's order: ISO,
US slash, US dash, long month-name, abbreviated month-name.  This follows
the spec's wording for comparison with the source's `tryFormats`, which
additionally tries the day-first `%d/%m/%Y` between the US-dash and
month-name formats. -/
def specListedFormats (cs : List Char) : Option Ymd :=
  match strptimeYmdDash cs with
  | some d => some d
  | Option.none =>
  match strptimeMdySlash cs with
  | some d => some d
  | Option.none =>
  match strptimeMdyDash cs with
  | some d => some d
  | Option.none =>
  match strptimeMonthName monthNamesFull cs with
  | some d => some d
  | Option.none => strptimeMonthName monthNamesAbbr cs

/-- The per-field confidence bucket computed inside
`_calculate_field_confidences` for one field. -/
def fieldBucket (data : List (String × PyVal)) (field : FieldDef) : ℚ :=
  if pyGet data field.name = PyVal.none then
    (if field.required then 3/10 else 8/10)
  else if _validate_field_type (pyGet data field.name) field.type then 95/100
  else 5/10

/-- The type-matching relation as WORDED by the specification (for
comparison with the source's `_validate_field_type`): string/text accept
any string; number accepts an integer or floating value; date accepts
only strings that parse strictly as year-month-day; boolean accepts only
a literal boolean; array accepts a list; unknown declared types always
pass; null is always type-valid. -/
def specTypeMatches (value : PyVal) (expected_type : String) : Bool :=
  match value with
  | PyVal.none => true
  | _ =>
    if expected_type == "string" || expected_type == "text" then
      (match value with | PyVal.str _ => true | _ => false)
    else if expected_type == "number" then
      (match value with
       | PyVal.int _ => true
       | PyVal.float _ => true
       | _ => false)
    else if expected_type == "date" then _is_valid_date value
    else if expected_type == "boolean" then
      (match value with | PyVal.bool _ => true | _ => false)
    else if expected_type == "array" then
      (match value with | PyVal.list _ => true | _ => false)
    else true

/-! ### C1 -/

/-- C1: for a processing attempt whose extraction step ran to completion,
`_update_document` derives the persisted terminal status exactly as:
FAILED when the extraction result has at least one error and its data map
is empty; otherwise NEEDS_REVIEW iff the overall confidence is strictly
below the configured review threshold; otherwise PROCESSED — in
particular, confidence exactly equal to the threshold yields PROCESSED. -/
theorem C1_terminal_status (st : Settings) (doc : Document) (raw_text : String)
    (extraction_result : ExtractionResult) (now : Nat) :
    ((_update_document st doc raw_text extraction_result now).status =
      if extraction_result.errors ≠ [] ∧ extraction_result.data = [] then
        DocumentStatus.failed
      else if extraction_result.confidence < st.extraction_confidence_threshold then
        DocumentStatus.needs_review
      else DocumentStatus.processed)
    ∧ ((extraction_result.errors = [] ∨ extraction_result.data ≠ []) →
        extraction_result.confidence = st.extraction_confidence_threshold →
        (_update_document st doc raw_text extraction_result now).status =
          DocumentStatus.processed) := by
  have hstat : (_update_document st doc raw_text extraction_result now).status =
      if !extraction_result.errors.isEmpty && extraction_result.data.isEmpty then
        DocumentStatus.failed
      else if extraction_result.needs_review st then
        DocumentStatus.needs_review
      else DocumentStatus.processed := rfl
  have hbool : (!extraction_result.errors.isEmpty && extraction_result.data.isEmpty) =
      decide (extraction_result.errors ≠ [] ∧ extraction_result.data = []) := by
    rcases he : extraction_result.errors with _ | ⟨a, t⟩ <;>
      rcases hd : extraction_result.data with _ | ⟨b, u⟩ <;> simp [List.isEmpty]
  constructor
  · rw [hstat, hbool, ExtractionResult.needs_review]
    by_cases h1 : extraction_result.errors ≠ [] ∧ extraction_result.data = [] <;>
      by_cases h2 : extraction_result.confidence < st.extraction_confidence_threshold <;>
        simp [h1, h2]
  · intro hok heq
    rw [hstat, hbool]
    have h1 : ¬(extraction_result.errors ≠ [] ∧ extraction_result.data = []) := by
      rcases hok with h | h
      · exact fun hc => hc.1 h
      · exact fun hc => h hc.2
    have h2 : ¬(extraction_result.confidence < st.extraction_confidence_threshold) := by
      rw [heq]; exact lt_irrefl _
    simp [h1, ExtractionResult.needs_review, h2]

/-- C1 witness: errors empty, data empty, confidence exactly at the
threshold 8/10 → status PROCESSED. -/
theorem C1_terminal_status_witness :
    (_update_document ⟨some "k", 8/10, "./storage"⟩
      ⟨1, Option.none, Option.none, "a.pdf", "application/pdf",
       DocumentStatus.processing, Option.none, Option.none, Option.none,
       Option.none, Option.none, Option.none⟩
      "text" ⟨[], 8/10, [], "", []⟩ 0).status = DocumentStatus.processed :=
  (C1_terminal_status _ _ _ _ _).2 (Or.inl rfl) rfl

/-! ### C8 -/

/-- C8: processing a document id with no `Document` row returns a failure
result with the single error "Document not found" and leaves the database
state entirely unchanged. -/
theorem C8_document_not_found (st : Settings) (or : Oracle) (db : DBState)
    (document_id : Nat) (h : lookupDoc db document_id = Option.none) :
    process_document st or db document_id =
      (db, ⟨false, document_id, "", [], 0, [], ["Document not found"],
            Option.none⟩) := by
  unfold process_document
  rw [h]

/-- C8 witness: an empty database and document id 7. -/
theorem C8_document_not_found_witness :
    process_document ⟨Option.none, 8/10, "./storage"⟩
      ⟨fun _ => false, fun _ _ => Except.error "no engine", Except.error "no llm", 0⟩
      ⟨[], [], [], []⟩ 7 =
      (⟨[], [], [], []⟩,
       ⟨false, 7, "", [], 0, [], ["Document not found"], Option.none⟩) :=
  C8_document_not_found _ _ _ _ rfl

/-! ### C10 -/

/-- C10: the linker's acceptance test and `needs_review` read the same
configured threshold (`settings.extraction_confidence_threshold`), so a
matched requirement is promoted to COMPLIANT exactly when the extraction
is not flagged for review. -/
theorem C10_acceptance_iff_not_review (st : Settings) (requirement : Requirement)
    (document_id : Nat) (extraction_result : ExtractionResult) :
    ((extraction_result.needs_review st = false →
        (link_on_match st requirement document_id extraction_result).1.status =
          RequirementStatus.compliant)
     ∧ (extraction_result.needs_review st = true →
        (link_on_match st requirement document_id extraction_result).1.status =
          requirement.status))
    ∧ (extraction_result.needs_review st = false ↔
        st.extraction_confidence_threshold ≤ extraction_result.confidence) := by
  have hiff : extraction_result.needs_review st = false ↔
      st.extraction_confidence_threshold ≤ extraction_result.confidence := by
    rw [ExtractionResult.needs_review]
    simp [not_lt]
  refine ⟨⟨?_, ?_⟩, hiff⟩
  · intro h
    have hle := hiff.mp h
    simp [link_on_match, hle]
  · intro h
    have hlt : ¬(st.extraction_confidence_threshold ≤ extraction_result.confidence) := by
      intro hle
      rw [hiff.mpr hle] at h
      exact Bool.false_ne_true h
    simp only [link_on_match, hlt, decide_False, if_false]
    rcases hv : py_truthy (pyGet extraction_result.data "expiration_date") <;>
      rcases hg : pyGet extraction_result.data "expiration_date" <;>
        simp [hv, hg] <;>
          rcases hp : strptimeYmdDash (String.data _) <;> simp [hp]

/-- C10 witness: confidence 95/100 against threshold 8/10 is not
review-flagged, and the matched pending requirement is promoted. -/
theorem C10_acceptance_iff_not_review_witness :
    (link_on_match ⟨some "k", 8/10, "./storage"⟩
      ⟨3, 2, 9, RequirementStatus.pending, Option.none, Option.none⟩ 1
      ⟨[], 95/100, [], "", []⟩).1.status = RequirementStatus.compliant :=
  (C10_acceptance_iff_not_review _ _ _ _).1.1
    (by rw [ExtractionResult.needs_review]; norm_num)

/-! ### C5 -/

/-- C5: on a successful requirement match, the linker sets `document_id`
to the document's id; sets `due_date` to the parsed date exactly when the
extracted data holds an `expiration_date` string accepted by
`strptime("%Y-%m-%d")` (malformed or missing values are silently ignored,
leaving `due_date` unchanged); promotes the status to COMPLIANT exactly
when the confidence is at or above the configured threshold (otherwise
the status is untouched); and returns the requirement's id. -/
theorem C5_link_on_match_spec (st : Settings) (requirement : Requirement)
    (document_id : Nat) (extraction_result : ExtractionResult) :
    ((link_on_match st requirement document_id extraction_result).2 =
      requirement.id)
    ∧ ((link_on_match st requirement document_id extraction_result).1.document_id =
      some document_id)
    ∧ (∀ s d, pyGet extraction_result.data "expiration_date" = PyVal.str s →
        strptimeYmdDash s.data = some d →
        (link_on_match st requirement document_id extraction_result).1.due_date =
          some d)
    ∧ ((¬ ∃ s d, pyGet extraction_result.data "expiration_date" = PyVal.str s ∧
          strptimeYmdDash s.data = some d) →
        (link_on_match st requirement document_id extraction_result).1.due_date =
          requirement.due_date)
    ∧ (st.extraction_confidence_threshold ≤ extraction_result.confidence →
        (link_on_match st requirement document_id extraction_result).1.status =
          RequirementStatus.compliant)
    ∧ (extraction_result.confidence < st.extraction_confidence_threshold →
        (link_on_match st requirement document_id extraction_result).1.status =
          requirement.status) := by
  have hdata : ∀ (s : String) (d : Ymd), strptimeYmdDash s.data = some d →
      s.isEmpty = true → False := by
    intro s d hp hs
    have : s = "" := (String.isEmpty_iff s).mp hs
    subst this
    simp [strptimeYmdDash, splitC] at hp
  refine ⟨?_, ?_, ?_, ?_, ?_, ?_⟩
  · unfold link_on_match
    by_cases hacc : st.extraction_confidence_threshold ≤ extraction_result.confidence <;>
      simp [hacc]
  · unfold link_on_match
    by_cases hacc : st.extraction_confidence_threshold ≤ extraction_result.confidence <;>
      rcases hg : pyGet extraction_result.data "expiration_date" with
        _ | b | n | q | s | l | dd <;>
        simp only [hg, py_truthy] <;>
        first
        | (rcases hp : strptimeYmdDash s.data with _ | d <;>
            by_cases hs : s.isEmpty <;>
            simp [hacc, hp, hs])
        | simp [hacc]
  · intro s d hg hp
    unfold link_on_match
    rw [hg]
    have hs : s.isEmpty = false := by
      rcases h : s.isEmpty
      · rfl
      · exact absurd (hdata s d hp h) (fun x => x)
    by_cases hacc : st.extraction_confidence_threshold ≤ extraction_result.confidence <;>
      simp [py_truthy, hs, hp, hacc]
  · intro hne
    unfold link_on_match
    by_cases hacc : st.extraction_confidence_threshold ≤ extraction_result.confidence <;>
      rcases hg : pyGet extraction_result.data "expiration_date" with
        _ | b | n | q | s | l | dd <;>
        simp only [hg, py_truthy] <;>
        first
        | (rcases hp : strptimeYmdDash s.data with _ | d <;>
            by_cases hs : s.isEmpty <;>
            simp [hacc, hp, hs] <;>
            exact absurd ⟨s, d, hg, hp⟩ hne)
        | simp [hacc]
  · intro hacc
    unfold link_on_match
    simp [hacc]
  · intro hlt
    have hacc : ¬(st.extraction_confidence_threshold ≤ extraction_result.confidence) :=
      not_le.mpr hlt
    unfold link_on_match
    rcases hg : pyGet extraction_result.data "expiration_date" with
      _ | b | n | q | s | l | dd <;>
      simp only [hg, py_truthy] <;>
      first
      | (rcases hp : strptimeYmdDash s.data with _ | d <;>
          by_cases hs : s.isEmpty <;>
          simp [hacc, hp, hs])
      | simp [hacc]

/-- C5 witness (the spec's Scenario F): `expiration_date = "2025-12-31"`,
confidence 95/100 ≥ threshold 8/10 → due date 2025-12-31, document linked,
status COMPLIANT, id returned. -/
theorem C5_link_on_match_spec_witness :
    (link_on_match ⟨some "k", 8/10, "./storage"⟩
        ⟨3, 2, 9, RequirementStatus.pending, Option.none, Option.none⟩ 1
        ⟨[("expiration_date", PyVal.str "2025-12-31")], 95/100, [], "", []⟩).1.due_date =
      some ⟨2025, 12, 31⟩
    ∧ (link_on_match ⟨some "k", 8/10, "./storage"⟩
        ⟨3, 2, 9, RequirementStatus.pending, Option.none, Option.none⟩ 1
        ⟨[("expiration_date", PyVal.str "2025-12-31")], 95/100, [], "", []⟩).1.document_id =
      some 1
    ∧ (link_on_match ⟨some "k", 8/10, "./storage"⟩
        ⟨3, 2, 9, RequirementStatus.pending, Option.none, Option.none⟩ 1
        ⟨[("expiration_date", PyVal.str "2025-12-31")], 95/100, [], "", []⟩).1.status =
      RequirementStatus.compliant
    ∧ (link_on_match ⟨some "k", 8/10, "./storage"⟩
        ⟨3, 2, 9, RequirementStatus.pending, Option.none, Option.none⟩ 1
        ⟨[("expiration_date", PyVal.str "2025-12-31")], 95/100, [], "", []⟩).2 = 3 := by
  refine ⟨(C5_link_on_match_spec _ _ _ _).2.2.1 "2025-12-31" ⟨2025, 12, 31⟩
      (by decide) (by decide),
    (C5_link_on_match_spec _ _ _ _).2.1,
    (C5_link_on_match_spec _ _ _ _).2.2.2.2.1 (by norm_num),
    (C5_link_on_match_spec _ _ _ _).1⟩

/-! ### C9 -/

theorem find_map_store (l : List Document) (doc : Document) (i : Nat)
    (hid : doc.id = i) :
    ∀ d0, l.find? (fun d => d.id == i) = some d0 →
      (l.map (fun d => if d.id == doc.id then doc else d)).find?
        (fun d => d.id == i) = some doc := by
  induction l with
  | nil => intro d0 h; simp at h
  | cons a t ih =>
    intro d0 h
    rcases ha : (a.id == i) with _ | _
    · have ha2 : (a.id == doc.id) = false := by
        rw [hid]; exact ha
      rw [List.find?_cons_of_neg _ (by simp [ha])] at h
      simp only [List.map_cons, ha2, if_false]
      rw [List.find?_cons_of_neg _ (by simp [ha])]
      exact ih d0 h
    · have ha2 : (a.id == doc.id) = true := by
        rw [hid]; exact ha
      simp only [List.map_cons, ha2, if_true]
      rw [List.find?_cons_of_pos _ (by simp [hid])]

theorem lookupDoc_storeDoc (db : DBState) (doc d0 : Document) (i : Nat)
    (h : lookupDoc db i = some d0) (hid : doc.id = i) :
    lookupDoc (storeDoc db doc) i = some doc :=
  find_map_store db.documents doc i hid d0 h

/-- C9: when the document exists, OCR succeeds, and the document type is
absent or has no extraction prompt, the attempt persists the document as
FAILED with processing error "No extraction configuration for this
document type" (the no-op extraction result carries exactly that error and
an empty data map, so the terminal-status rule yields FAILED). -/
theorem C9_no_config_failed (st : Settings) (or : Oracle) (db : DBState)
    (document_id : Nat) (doc : Document) (raw_text : String)
    (h1 : lookupDoc db document_id = some doc)
    (h2 : _extract_text st or { doc with status := DocumentStatus.processing } =
      Except.ok raw_text)
    (h3 : ∀ dt, _get_document_type db doc = some dt →
      optStrFalsy dt.extraction_prompt = true) :
    ∃ doc2, lookupDoc (process_document st or db document_id).1 document_id = some doc2
      ∧ doc2.status = DocumentStatus.failed
      ∧ doc2.processing_error =
          some "No extraction configuration for this document type"
      ∧ doc2.extracted_data = some []
      ∧ (process_document st or db document_id).2.errors =
          ["No extraction configuration for this document type"] := by
  have hid : doc.id = document_id := by
    simpa using (List.find?_some h1)
  have hextract : _extract_data st or.llm raw_text (_get_document_type db doc) =
      ⟨[], 0, [], "", ["No extraction configuration for this document type"]⟩ := by
    rcases hdto : _get_document_type db doc with _ | dt
    · rfl
    · have hf := h3 dt hdto
      unfold _extract_data
      simp only [hf, if_true]
  have hdt : _get_document_type
      (storeDoc db { doc with status := DocumentStatus.processing })
      { doc with status := DocumentStatus.processing } =
      _get_document_type db doc := rfl
  have hrun : process_document st or db document_id =
      (storeDoc (storeDoc db { doc with status := DocumentStatus.processing })
        (_update_document st { doc with status := DocumentStatus.processing }
          raw_text
          ⟨[], 0, [], "", ["No extraction configuration for this document type"]⟩
          or.now),
       ⟨true, document_id, raw_text, [], 0, [],
        ["No extraction configuration for this document type"], Option.none⟩) := by
    unfold process_document
    simp only [h1]
    simp only [h2]
    rw [hdt, hextract]
    rfl
  refine ⟨_update_document st { doc with status := DocumentStatus.processing }
      raw_text ⟨[], 0, [], "", ["No extraction configuration for this document type"]⟩
      or.now, ?_, rfl, rfl, rfl, by rw [hrun]⟩
  rw [hrun]
  exact lookupDoc_storeDoc _ _ _ _
    (lookupDoc_storeDoc db _ doc document_id h1 hid) hid

/-- C9 witness: a one-document database whose document has no document
type; the file exists and OCR succeeds. -/
theorem C9_no_config_failed_witness :
    ∃ doc2, lookupDoc (process_document ⟨some "k", 8/10, "./storage"⟩
        ⟨fun _ => true, fun _ _ => Except.ok "hello", Except.ok "resp", 5⟩
        ⟨[⟨1, Option.none, Option.none, "a.pdf", "application/pdf",
           DocumentStatus.uploaded, Option.none, Option.none, Option.none,
           Option.none, Option.none, Option.none⟩], [], [], []⟩ 1).1 1 = some doc2
      ∧ doc2.status = DocumentStatus.failed
      ∧ doc2.processing_error =
          some "No extraction configuration for this document type"
      ∧ doc2.extracted_data = some []
      ∧ (process_document ⟨some "k", 8/10, "./storage"⟩
          ⟨fun _ => true, fun _ _ => Except.ok "hello", Except.ok "resp", 5⟩
          ⟨[⟨1, Option.none, Option.none, "a.pdf", "application/pdf",
             DocumentStatus.uploaded, Option.none, Option.none, Option.none,
             Option.none, Option.none, Option.none⟩], [], [], []⟩ 1).2.errors =
          ["No extraction configuration for this document type"] :=
  C9_no_config_failed _ _ _ 1 _ "hello" rfl rfl
    (fun dt h => by simp [_get_document_type] at h)

/-! ### C2 -/

/-- C2 counterexample: `"25/12/2025"` is parsed by NONE of the four listed
format families, so per the claim it should pass through unchanged — yet
the code normalizes it to `"2025-12-25"` via the unlisted day-first
`%d/%m/%Y` format. -/
theorem C2_counterexample :
    specListedFormats "25/12/2025".data = Option.none
    ∧ _clean_value (PyVal.str "25/12/2025") "date" = PyVal.str "2025-12-25"
    ∧ PyVal.str "2025-12-25" ≠ PyVal.str "25/12/2025" := by decide

/-- C2 amended: date cleaning attempts, in order, ISO `%Y-%m-%d`, US
slash `%m/%d/%Y`, US dash `%m-%d-%Y`, day-first slash `%d/%m/%Y`, long
month-name `%B %d, %Y` and abbreviated month-name `%b %d, %Y`; the first
format that parses wins and the value is re-emitted via
`strftime("%Y-%m-%d")`; if none parse, the original string is returned
unchanged (not nulled). -/
theorem C2_amended_date_cleaning (s : String) :
    (∀ d, strptimeYmdDash s.data = some d →
      _clean_value (PyVal.str s) "date" = PyVal.str (String.mk (strftimeYmd d)))
    ∧ (∀ d, strptimeYmdDash s.data = Option.none →
        strptimeMdySlash s.data = some d →
      _clean_value (PyVal.str s) "date" = PyVal.str (String.mk (strftimeYmd d)))
    ∧ (∀ d, strptimeYmdDash s.data = Option.none →
        strptimeMdySlash s.data = Option.none →
        strptimeMdyDash s.data = some d →
      _clean_value (PyVal.str s) "date" = PyVal.str (String.mk (strftimeYmd d)))
    ∧ (∀ d, strptimeYmdDash s.data = Option.none →
        strptimeMdySlash s.data = Option.none →
        strptimeMdyDash s.data = Option.none →
        strptimeDmySlash s.data = some d →
      _clean_value (PyVal.str s) "date" = PyVal.str (String.mk (strftimeYmd d)))
    ∧ (∀ d, strptimeYmdDash s.data = Option.none →
        strptimeMdySlash s.data = Option.none →
        strptimeMdyDash s.data = Option.none →
        strptimeDmySlash s.data = Option.none →
        strptimeMonthName monthNamesFull s.data = some d →
      _clean_value (PyVal.str s) "date" = PyVal.str (String.mk (strftimeYmd d)))
    ∧ (∀ d, strptimeYmdDash s.data = Option.none →
        strptimeMdySlash s.data = Option.none →
        strptimeMdyDash s.data = Option.none →
        strptimeDmySlash s.data = Option.none →
        strptimeMonthName monthNamesFull s.data = Option.none →
        strptimeMonthName monthNamesAbbr s.data = some d →
      _clean_value (PyVal.str s) "date" = PyVal.str (String.mk (strftimeYmd d)))
    ∧ (strptimeYmdDash s.data = Option.none →
        strptimeMdySlash s.data = Option.none →
        strptimeMdyDash s.data = Option.none →
        strptimeDmySlash s.data = Option.none →
        strptimeMonthName monthNamesFull s.data = Option.none →
        strptimeMonthName monthNamesAbbr s.data = Option.none →
      _clean_value (PyVal.str s) "date" = PyVal.str s) := by
  refine ⟨?_, ?_, ?_, ?_, ?_, ?_, ?_⟩ <;>
    (intros
     simp_all [_clean_value, tryFormats])

/-- C2 witness: `"01-15-2025"` fails ISO and US slash, parses as US dash,
and is re-emitted as `"2025-01-15"`; `"not-a-date"` fails all six formats
and passes through unchanged. -/
theorem C2_amended_date_cleaning_witness :
    _clean_value (PyVal.str "01-15-2025") "date" = PyVal.str "2025-01-15"
    ∧ _clean_value (PyVal.str "not-a-date") "date" = PyVal.str "not-a-date" := by
  constructor
  · have h := (C2_amended_date_cleaning "01-15-2025").2.2.1 ⟨2025, 1, 15⟩
      (by decide) (by decide) (by decide)
    rw [h]; decide
  · exact (C2_amended_date_cleaning "not-a-date").2.2.2.2.2.2
      (by decide) (by decide) (by decide) (by decide) (by decide) (by decide)

/-! ### C3 -/

/-- C3 counterexample: on `"{}x{}"` the defensive parse RAISES (modelled
as `Except.error`): direct `json.loads` fails, the greedy regex span runs
from the first `{` to the last `}` (`"{}x{}"`, not the first balanced span
`"{}"`), and the unguarded inner `json.loads` of that span throws — even
though the input's first balanced span parses fine, so the claimed
behaviour would have returned `{}` without throwing. -/
theorem C3_counterexample :
    _parse_response "\x7b\x7dx\x7b\x7d" = Except.error "JSONDecodeError"
    ∧ json_loads "\x7b\x7d" = some (PyVal.dict PyDict.nil) := by decide

/-- C3 amended: the response parse first attempts direct JSON parsing; on
failure it takes the span from the first `{` to the LAST `}` (the greedy
`re.search(r'\x7b.*\x7d', ..., DOTALL)` match) and parses that, and a
failure of that inner parse escapes as an exception (so the parse CAN
throw); only when no such span exists does it fall back to an empty map. -/
theorem C3_amended_parse_response (raw : String) :
    (∀ v, json_loads raw = some v → _parse_response raw = Except.ok v)
    ∧ (json_loads raw = Option.none → greedyBraceSpan raw.data = Option.none →
        _parse_response raw = Except.ok (PyVal.dict PyDict.nil))
    ∧ (∀ span, json_loads raw = Option.none → greedyBraceSpan raw.data = some span →
        _parse_response raw =
          (match jsonLoadsC span with
           | some v => Except.ok v
           | Option.none => Except.error "JSONDecodeError")) := by
  refine ⟨?_, ?_, ?_⟩
  · intro v h
    simp [_parse_response, h]
  · intro h1 h2
    simp [_parse_response, h1, h2]
  · intro span h1 h2
    simp [_parse_response, h1, h2]

/-- C3 witness: `Here is the data: {"key":"value"} thanks` fails direct
parsing, and the greedy span `{"key":"value"}` parses to the expected
map. -/
theorem C3_amended_parse_response_witness :
    _parse_response "Here is the data: \x7b\"key\":\"value\"\x7d thanks" =
      Except.ok (PyVal.dict (PyDict.cons "key" (PyVal.str "value") PyDict.nil)) := by
  have h := (C3_amended_parse_response
      "Here is the data: \x7b\"key\":\"value\"\x7d thanks").2.2
      "\x7b\"key\":\"value\"\x7d".data (by decide) (by decide)
  rw [h]; decide

/-! ### Dict lemmas shared by C4 and C6 -/

theorem find?_map_set_self {α : Type} (l : List (String × α)) (k : String) (v : α)
    (h : l.any (fun p => p.1 == k) = true) :
    (l.map (fun p => if p.1 == k then (k, v) else p)).find?
      (fun p => p.1 == k) = some (k, v) := by
  induction l with
  | nil => simp at h
  | cons p t ih =>
    rcases hp : (p.1 == k) with _ | _
    · have h' : t.any (fun p => p.1 == k) = true := by
        simpa [hp] using h
      simp only [List.map_cons, hp, Bool.false_eq_true, if_false]
      rw [List.find?_cons_of_neg _ (by simp [hp])]
      exact ih h'
    · simp only [List.map_cons, hp, if_true]
      rw [List.find?_cons_of_pos _ (by simp)]

theorem dictGet_dictSet_self {α : Type} (d : List (String × α)) (k : String)
    (v : α) : dictGet (dictSet d k v) k = some v := by
  unfold dictSet
  rcases hany : d.any (fun p => p.1 == k) with _ | _
  · have hnone : d.find? (fun p => p.1 == k) = Option.none := by
      rw [List.find?_eq_none]
      intro x hx
      have := (List.any_eq_false.mp hany) x hx
      simp [this]
    simp [dictGet, List.find?_append, hnone]
  · simp only [if_true]
    rw [dictGet, find?_map_set_self d k v hany]
    rfl

theorem find?_map_set_ne {α : Type} (l : List (String × α)) (k k' : String)
    (v : α) (hne : (k == k') = false) :
    (l.map (fun p => if p.1 == k then (k, v) else p)).find?
      (fun p => p.1 == k') = l.find? (fun p => p.1 == k') := by
  induction l with
  | nil => rfl
  | cons p t ih =>
    rcases hp : (p.1 == k) with _ | _
    · simp only [List.map_cons, hp, Bool.false_eq_true, if_false]
      rcases hp' : (p.1 == k') with _ | _
      · rw [List.find?_cons_of_neg _ (by simp [hp']),
            List.find?_cons_of_neg _ (by simp [hp'])]
        exact ih
      · rw [List.find?_cons_of_pos _ (by simp [hp']),
            List.find?_cons_of_pos _ (by simp [hp'])]
    · have hpk : p.1 = k := by simpa using hp
      have hp' : (p.1 == k') = false := by
        rw [hpk]; exact hne
      simp only [List.map_cons, hp, if_true]
      rw [List.find?_cons_of_neg _ (by simp [hne]),
          List.find?_cons_of_neg _ (by simp [hp'])]
      exact ih

theorem dictGet_dictSet_ne {α : Type} (d : List (String × α)) (k k' : String)
    (v : α) (hne : k ≠ k') : dictGet (dictSet d k v) k' = dictGet d k' := by
  have hbe : (k == k') = false := by
    simp [hne]
  unfold dictSet
  rcases hany : d.any (fun p => p.1 == k) with _ | _
  · simp only [Bool.false_eq_true, if_false]
    unfold dictGet
    rw [List.find?_append]
    have : ([(k, v)].find? (fun p => p.1 == k')) = Option.none := by
      simp [hbe]
    rw [this]
    simp [Option.or_none]
  · simp only [if_true]
    unfold dictGet
    rw [find?_map_set_ne d k k' v hbe]

theorem mem_dictSet {α : Type} (d : List (String × α)) (k : String) (v : α)
    (p : String × α) (h : p ∈ dictSet d k v) : p ∈ d ∨ p = (k, v) := by
  unfold dictSet at h
  rcases hany : d.any (fun q => q.1 == k) with _ | _
  · rw [hany] at h
    simp only [Bool.false_eq_true, if_false] at h
    rcases List.mem_append.mp h with h1 | h1
    · exact Or.inl h1
    · exact Or.inr (by simpa using h1)
  · rw [hany] at h
    simp only [if_true] at h
    rcases List.mem_map.mp h with ⟨q, hq, hqe⟩
    by_cases hqk : (q.1 == k) = true
    · rw [if_pos hqk] at hqe
      exact Or.inr hqe.symm
    · rw [if_neg hqk] at hqe
      exact Or.inl (hqe ▸ hq)

/-! ### C4 -/

theorem calc_conf_eq_fold (data : List (String × PyVal))
    (expected_fields : List FieldDef) :
    _calculate_field_confidences data expected_fields =
      expected_fields.foldl
        (fun confidences f => dictSet confidences f.name (fieldBucket data f))
        [] := rfl

theorem conf_fold_get_not_mem (data : List (String × PyVal))
    (fields : List FieldDef) (acc : List (String × ℚ)) (k : String)
    (h : k ∉ fields.map (fun f => f.name)) :
    dictGet (fields.foldl
      (fun confidences f => dictSet confidences f.name (fieldBucket data f))
      acc) k = dictGet acc k := by
  induction fields generalizing acc with
  | nil => rfl
  | cons g t ih =>
    simp only [List.map_cons, List.mem_cons, not_or] at h
    rw [List.foldl_cons, ih _ h.2,
        dictGet_dictSet_ne _ _ _ _ (fun he => h.1 he.symm)]

theorem conf_fold_get_mem (data : List (String × PyVal))
    (fields : List FieldDef) (acc : List (String × ℚ)) (f : FieldDef)
    (hf : f ∈ fields) (hnd : (fields.map (fun f => f.name)).Nodup) :
    dictGet (fields.foldl
      (fun confidences f => dictSet confidences f.name (fieldBucket data f))
      acc) f.name = some (fieldBucket data f) := by
  induction fields generalizing acc with
  | nil => simp at hf
  | cons g t ih =>
    rw [List.map_cons, List.nodup_cons] at hnd
    rcases List.mem_cons.mp hf with h | h
    · subst h
      rw [List.foldl_cons, conf_fold_get_not_mem data t _ f.name hnd.1,
          dictGet_dictSet_self]
    · rw [List.foldl_cons]
      exact ih _ h hnd.2

/-- C4 counterexample: a literal boolean extracted for a `number` field.
Per the claim's type rules a boolean is not an integer or floating value,
so the field should score 0.5 — but Python's `bool` is a subclass of
`int`, so `isinstance(True, (int, float))` holds and the code scores it
0.95. -/
theorem C4_counterexample :
    specTypeMatches (PyVal.bool true) "number" = false
    ∧ _validate_field_type (PyVal.bool true) "number" = true
    ∧ dictGet (_calculate_field_confidences [("amount", PyVal.bool true)]
        [⟨"amount", "number", true⟩]) "amount" = some (95/100)
    ∧ (95/100 : ℚ) ≠ 5/10 := by
  refine ⟨by decide, by decide, ?_, by norm_num⟩
  rfl

/-- C4 amended: every expected field is scored (also when absent from the
response); missing-or-null and required → 0.3, missing-or-null and
optional → 0.8, present and accepted by the source's type validator
(where `number` also accepts booleans, since Python's bool is an int
subclass) → 0.95, present and rejected → 0.5. -/
theorem C4_amended_field_confidence (data : List (String × PyVal))
    (expected_fields : List FieldDef)
    (hnd : (expected_fields.map (fun f => f.name)).Nodup) :
    ∀ f ∈ expected_fields,
      dictGet (_calculate_field_confidences data expected_fields) f.name =
        some (if pyGet data f.name = PyVal.none then
                (if f.required then (3/10 : ℚ) else 8/10)
              else if _validate_field_type (pyGet data f.name) f.type then 95/100
              else 5/10) := by
  intro f hf
  rw [calc_conf_eq_fold]
  exact conf_fold_get_mem data expected_fields [] f hf hnd

/-- C4 amended witness: four fields exercising all four buckets — a
required missing field (0.3), an optional null field (0.8), a well-typed
string field (0.95) and a mis-typed date field (0.5). -/
theorem C4_amended_field_confidence_witness :
    dictGet (_calculate_field_confidences
        [("b", PyVal.none), ("c", PyVal.str "hi"), ("d", PyVal.str "nope")]
        [⟨"a", "string", true⟩, ⟨"b", "number", false⟩,
         ⟨"c", "text", true⟩, ⟨"d", "date", true⟩]) "a" = some (3/10)
    ∧ dictGet (_calculate_field_confidences
        [("b", PyVal.none), ("c", PyVal.str "hi"), ("d", PyVal.str "nope")]
        [⟨"a", "string", true⟩, ⟨"b", "number", false⟩,
         ⟨"c", "text", true⟩, ⟨"d", "date", true⟩]) "b" = some (8/10)
    ∧ dictGet (_calculate_field_confidences
        [("b", PyVal.none), ("c", PyVal.str "hi"), ("d", PyVal.str "nope")]
        [⟨"a", "string", true⟩, ⟨"b", "number", false⟩,
         ⟨"c", "text", true⟩, ⟨"d", "date", true⟩]) "c" = some (95/100)
    ∧ dictGet (_calculate_field_confidences
        [("b", PyVal.none), ("c", PyVal.str "hi"), ("d", PyVal.str "nope")]
        [⟨"a", "string", true⟩, ⟨"b", "number", false⟩,
         ⟨"c", "text", true⟩, ⟨"d", "date", true⟩]) "d" = some (5/10) := by
  have h := C4_amended_field_confidence
    [("b", PyVal.none), ("c", PyVal.str "hi"), ("d", PyVal.str "nope")]
    [⟨"a", "string", true⟩, ⟨"b", "number", false⟩,
     ⟨"c", "text", true⟩, ⟨"d", "date", true⟩] (by decide)
  exact ⟨(h ⟨"a", "string", true⟩ (by decide)).trans rfl,
    (h ⟨"b", "number", false⟩ (by decide)).trans rfl,
    (h ⟨"c", "text", true⟩ (by decide)).trans rfl,
    (h ⟨"d", "date", true⟩ (by decide)).trans rfl⟩

/-! ### C6 -/

theorem mem_conf_fold (data : List (String × PyVal)) (fields : List FieldDef)
    (acc : List (String × ℚ)) (p : String × ℚ)
    (h : p ∈ fields.foldl
      (fun confidences f => dictSet confidences f.name (fieldBucket data f))
      acc) :
    p ∈ acc ∨ ∃ f ∈ fields, p = (f.name, fieldBucket data f) := by
  induction fields generalizing acc with
  | nil => exact Or.inl h
  | cons g t ih =>
    rw [List.foldl_cons] at h
    rcases ih _ h with h1 | ⟨f, hf, hp⟩
    · rcases mem_dictSet _ _ _ _ h1 with h2 | h2
      · exact Or.inl h2
      · exact Or.inr ⟨g, List.mem_cons_self g t, h2⟩
    · exact Or.inr ⟨f, List.mem_cons_of_mem g hf, hp⟩

theorem fieldBucket_bounds (data : List (String × PyVal)) (f : FieldDef) :
    0 ≤ fieldBucket data f ∧ fieldBucket data f ≤ 1 := by
  unfold fieldBucket
  split_ifs <;> norm_num

/-- C6: for every `ExtractionResult` the engine produces, every key of
`fieldConfidences` is the name of a field in `expectedFields`, every
value lies in [0, 1], and the overall confidence is the arithmetic mean
of the `fieldConfidences` values when that map is non-empty and exactly
0 when it is empty. -/
theorem C6_confidence_invariants (st : Settings) (llm : Except String String)
    (text : String) (extraction_prompt : String)
    (expected_fields : List FieldDef) :
    (∀ k c, (k, c) ∈
        (extract st llm text extraction_prompt expected_fields).field_confidences →
      (∃ f ∈ expected_fields, f.name = k) ∧ 0 ≤ c ∧ c ≤ 1)
    ∧ ((extract st llm text extraction_prompt expected_fields).confidence =
        if (extract st llm text extraction_prompt
            expected_fields).field_confidences.isEmpty then 0
        else (((extract st llm text extraction_prompt
            expected_fields).field_confidences.map (fun p => p.2)).sum) /
          ((extract st llm text extraction_prompt
            expected_fields).field_confidences.length)) := by
  have hmain : ∀ r : ExtractionResult,
      r = extract st llm text extraction_prompt expected_fields →
      (∀ k c, (k, c) ∈ r.field_confidences →
        (∃ f ∈ expected_fields, f.name = k) ∧ 0 ≤ c ∧ c ≤ 1)
      ∧ (r.confidence = if r.field_confidences.isEmpty then 0
          else ((r.field_confidences.map (fun p => p.2)).sum) /
            r.field_confidences.length) := by
    intro r hr
    unfold extract at hr
    by_cases hk : optStrFalsy st.openai_api_key = true
    · rw [if_pos hk] at hr
      subst hr
      exact ⟨fun k c h => absurd h (List.not_mem_nil _), rfl⟩
    · rw [if_neg hk] at hr
      rcases llm with e | raw
      · subst hr
        exact ⟨fun k c h => absurd h (List.not_mem_nil _), rfl⟩
      · dsimp only at hr
        rcases hp : _parse_response raw with e | v
        · rw [hp] at hr
          subst hr
          exact ⟨fun k c h => absurd h (List.not_mem_nil _), rfl⟩
        · rw [hp] at hr
          rcases v with _ | b | n | q | s | l | d <;> subst hr <;>
            try exact ⟨fun k c h => absurd h (List.not_mem_nil _), rfl⟩
          constructor
          · intro k c h
            dsimp only at h
            simp only [calc_conf_eq_fold] at h
            rcases mem_conf_fold _ _ _ _ h with h1 | ⟨f, hf, hp2⟩
            · exact absurd h1 (List.not_mem_nil _)
            · have he : k = f.name ∧ c = fieldBucket d.toList f := by
                have h1 := congrArg Prod.fst hp2
                have h2 := congrArg Prod.snd hp2
                exact ⟨h1, h2⟩
              refine ⟨⟨f, hf, he.1.symm⟩, ?_⟩
              rw [he.2]
              exact fieldBucket_bounds d.toList f
          · rfl
  exact hmain _ rfl

/-- C6 witness: a one-field schema and the response `{"a": 3}` give the
field confidence 95/100, whose key is the schema field's name and which
lies in [0, 1]. -/
theorem C6_confidence_invariants_witness :
    (∃ f ∈ [(⟨"a", "number", false⟩ : FieldDef)], f.name = "a")
    ∧ (0 : ℚ) ≤ 95/100 ∧ (95/100 : ℚ) ≤ 1 := by
  have hfc : (extract ⟨some "k", 8/10, "./storage"⟩
      (Except.ok "\x7b\"a\": 3\x7d") "txt" "prompt"
      [⟨"a", "number", false⟩]).field_confidences = [("a", 95/100)] := rfl
  exact (C6_confidence_invariants ⟨some "k", 8/10, "./storage"⟩
      (Except.ok "\x7b\"a\": 3\x7d") "txt" "prompt" [⟨"a", "number", false⟩]).1
    "a" (95/100) (by rw [hfc]; exact List.mem_singleton.mpr rfl)

/-! ### C7: decimal-representation lemmas -/

theorem charVal_digitChar10 (d : Nat) (h : d < 10) :
    charVal (digitChar10 d) = d := by
  interval_cases d <;> decide

theorem digitChar10_isDigit (d : Nat) (h : d < 10) :
    (digitChar10 d).isDigit = true := by
  interval_cases d <;> decide

theorem natCharsAux_eq_digits (fuel : Nat) :
    ∀ n : Nat, n ≤ fuel →
      natCharsAux fuel n = ((Nat.digits 10 n).map digitChar10).reverse := by
  induction fuel with
  | zero =>
    intro n h
    have h0 : n = 0 := Nat.le_zero.mp h
    subst h0
    simp [natCharsAux]
  | succ fuel ih =>
    intro n h
    match n with
    | 0 => simp [natCharsAux]
    | n + 1 =>
      have hdiv : (n + 1) / 10 ≤ fuel := by
        have := Nat.div_lt_self (Nat.succ_pos n) (by norm_num : 1 < 10)
        omega
      simp only [natCharsAux]
      rw [ih ((n + 1) / 10) hdiv]
      rw [Nat.digits_def' (by norm_num : 1 < 10) (Nat.succ_pos n)]
      simp

theorem natChars_eq_digits (n : Nat) :
    natChars n = ((Nat.digits 10 n).map digitChar10).reverse :=
  natCharsAux_eq_digits n n (le_refl n)

theorem natChars_all_digits (n : Nat) :
    ∀ c ∈ natChars n, c.isDigit = true := by
  intro c hc
  rw [natChars_eq_digits, List.mem_reverse] at hc
  rcases List.mem_map.mp hc with ⟨d, hd, he⟩
  have hlt : d < 10 := Nat.digits_lt_base (by norm_num) hd
  rw [← he]
  exact digitChar10_isDigit d hlt

theorem not_mem_natChars (c : Char) (n : Nat) (hc : c.isDigit = false) :
    c ∉ natChars n := by
  intro hm
  have h := natChars_all_digits n c hm
  rw [h] at hc
  exact absurd hc (by decide)

theorem foldl_digits_eq (l : List Nat) (hl : ∀ d ∈ l, d < 10) :
    ∀ a : Nat,
      ((l.map digitChar10).reverse).foldl (fun n c => n * 10 + charVal c) a =
        a * 10 ^ l.length + Nat.ofDigits 10 l := by
  induction l with
  | nil => intro a; simp
  | cons d t ih =>
    intro a
    have hd : d < 10 := hl d (List.mem_cons_self d t)
    have ht : ∀ x ∈ t, x < 10 := fun x hx => hl x (List.mem_cons_of_mem d hx)
    rw [List.map_cons, List.reverse_cons, List.foldl_append, ih ht a]
    simp only [List.foldl_cons, List.foldl_nil]
    rw [charVal_digitChar10 d hd, Nat.ofDigits_cons]
    simp only [List.length_cons, pow_succ]
    push_cast
    ring

theorem digitsVal_natChars (n : Nat) : digitsVal (natChars n) = n := by
  rw [digitsVal, natChars_eq_digits,
      foldl_digits_eq _ (fun d hd => Nat.digits_lt_base (by norm_num) hd) 0]
  simp [Nat.ofDigits_digits]

theorem natChars_length_le_iff (n k : Nat) :
    (natChars n).length ≤ k ↔ n < 10 ^ k := by
  rw [natChars_eq_digits]
  simp only [List.length_reverse, List.length_map]
  rcases Nat.eq_zero_or_pos n with h0 | hpos
  · subst h0
    simp [Nat.pos_pow_of_pos]
  · have hn : n ≠ 0 := Nat.pos_iff_ne_zero.mp hpos
    rw [Nat.digits_len 10 n (by norm_num) hn, Nat.add_one_le_iff]
    exact (Nat.lt_pow_iff_log_lt (by norm_num) hn).symm

theorem natChars_ne_nil (n : Nat) (h : n ≠ 0) : natChars n ≠ [] := by
  rw [natChars_eq_digits]
  simp [Nat.digits_ne_nil_iff_ne_zero.mpr h]

theorem natChars_length_four (y : Nat) (h1 : 1000 ≤ y) (h2 : y ≤ 9999) :
    (natChars y).length = 4 := by
  have ha : (natChars y).length ≤ 4 := (natChars_length_le_iff y 4).mpr (by omega)
  have hb : ¬((natChars y).length ≤ 3) := by
    rw [natChars_length_le_iff]
    norm_num
    omega
  omega

theorem natChars_length_le_three (y : Nat) (h : y < 1000) :
    (natChars y).length ≤ 3 := by
  rw [natChars_length_le_iff]
  norm_num
  omega

theorem pad2_all_digits (m : Nat) : ∀ c ∈ pad2 m, c.isDigit = true := by
  unfold pad2
  split_ifs with h
  · intro c hc
    rcases List.mem_cons.mp hc with h1 | h1
    · rw [h1]; decide
    · exact natChars_all_digits m c h1
  · exact natChars_all_digits m

theorem not_mem_pad2 (c : Char) (m : Nat) (hc : c.isDigit = false) :
    c ∉ pad2 m := by
  intro hm
  have h := pad2_all_digits m c hm
  rw [h] at hc
  exact absurd hc (by decide)

theorem pad2_length (m : Nat) (h1 : 1 ≤ m) (h2 : m ≤ 99) :
    (pad2 m).length = 2 := by
  unfold pad2
  split_ifs with h
  · have hle : (natChars m).length ≤ 1 := (natChars_length_le_iff m 1).mpr (by omega)
    have hne : natChars m ≠ [] := natChars_ne_nil m (by omega)
    have hpos : 0 < (natChars m).length := List.length_pos.mpr hne
    simp only [List.length_cons]
    omega
  · have hle : (natChars m).length ≤ 2 := (natChars_length_le_iff m 2).mpr (by omega)
    have hgt : ¬((natChars m).length ≤ 1) := by
      rw [natChars_length_le_iff]
      norm_num
      omega
    omega

theorem digitsVal_pad2 (m : Nat) : digitsVal (pad2 m) = m := by
  unfold pad2
  split_ifs with h
  · show List.foldl (fun n c => n * 10 + charVal c) 0 ('0' :: natChars m) = m
    rw [List.foldl_cons]
    have h0 : (0 * 10 + charVal '0') = 0 := by decide
    rw [h0]
    exact digitsVal_natChars m
  · exact digitsVal_natChars m

/-! ### C7: splitC lemmas -/

theorem splitC_of_not_mem (sep : Char) (a : List Char) (h : sep ∉ a) :
    splitC sep a = [a] := by
  induction a with
  | nil => rfl
  | cons c cs ih =>
    have hc : ¬(c = sep) := fun he => h (he ▸ List.mem_cons_self c cs)
    have ht : sep ∉ cs := fun hm => h (List.mem_cons_of_mem c hm)
    simp [splitC, ih ht, hc]

theorem splitC_append_sep (sep : Char) (a r : List Char) (h : sep ∉ a) :
    splitC sep (a ++ sep :: r) = a :: splitC sep r := by
  induction a with
  | nil => simp [splitC]
  | cons c cs ih =>
    have hc : ¬(c = sep) := fun he => h (he ▸ List.mem_cons_self c cs)
    have ht : sep ∉ cs := fun hm => h (List.mem_cons_of_mem c hm)
    have hr : splitC sep (cs ++ sep :: r) = cs :: splitC sep r := ih ht
    simp [splitC, hr, hc]

theorem splitC_strftime (y m d : Nat) :
    splitC '-' (strftimeYmd ⟨y, m, d⟩) = [natChars y, pad2 m, pad2 d] := by
  have h1 : '-' ∉ natChars y := not_mem_natChars '-' y (by decide)
  have h2 : '-' ∉ pad2 m := not_mem_pad2 '-' m (by decide)
  have h3 : '-' ∉ pad2 d := not_mem_pad2 '-' d (by decide)
  show splitC '-' (natChars y ++ '-' :: (pad2 m ++ '-' :: pad2 d)) = _
  rw [splitC_append_sep '-' _ _ h1, splitC_append_sep '-' _ _ h2,
      splitC_of_not_mem '-' _ h3]

theorem strftime_chars (y m d : Nat) :
    ∀ c ∈ strftimeYmd ⟨y, m, d⟩, c.isDigit = true ∨ c = '-' := by
  intro c hc
  unfold strftimeYmd at hc
  rcases List.mem_append.mp hc with h | h
  · exact Or.inl (natChars_all_digits y c h)
  · rcases List.mem_cons.mp h with h | h
    · exact Or.inr h
    · rcases List.mem_append.mp h with h | h
      · exact Or.inl (pad2_all_digits m c h)
      · rcases List.mem_cons.mp h with h | h
        · exact Or.inr h
        · exact Or.inl (pad2_all_digits d c h)

theorem slash_not_mem_strftime (y m d : Nat) :
    '/' ∉ strftimeYmd ⟨y, m, d⟩ := by
  intro hm
  rcases strftime_chars y m d '/' hm with h | h
  · exact absurd h (by decide)
  · exact absurd h (by decide)

theorem comma_not_mem_strftime (y m d : Nat) :
    ',' ∉ strftimeYmd ⟨y, m, d⟩ := by
  intro hm
  rcases strftime_chars y m d ',' hm with h | h
  · exact absurd h (by decide)
  · exact absurd h (by decide)

/-! ### C7: token and round-trip lemmas -/

theorem yearTok_natChars (y : Nat) (h1 : 1000 ≤ y) (h2 : y ≤ 9999) :
    yearTok (natChars y) = some y := by
  unfold yearTok
  have hl : (natChars y).length = 4 := natChars_length_four y h1 h2
  have ha : (natChars y).all Char.isDigit = true :=
    List.all_eq_true.mpr (fun c hc => natChars_all_digits y c hc)
  rw [hl, ha]
  simp [digitsVal_natChars]

theorem yearTok_none_of_length (cs : List Char) (h : cs.length ≠ 4) :
    yearTok cs = Option.none := by
  unfold yearTok
  have hb : (cs.length == 4) = false := by
    simpa using h
  rw [hb]
  simp

theorem twoTok_pad2 (m : Nat) (h1 : 1 ≤ m) (h2 : m ≤ 99) :
    twoTok (pad2 m) = some m := by
  unfold twoTok
  have hl : (pad2 m).length = 2 := pad2_length m h1 h2
  have ha : (pad2 m).all Char.isDigit = true :=
    List.all_eq_true.mpr (fun c hc => pad2_all_digits m c hc)
  rw [hl, ha]
  simp [digitsVal_pad2]

theorem mkYmd_valid (y m d : Nat) (e : Ymd) (h : mkYmd y m d = some e) :
    validYmd e.year e.month e.day = true := by
  unfold mkYmd at h
  split_ifs at h with hv
  · cases h
    exact hv

theorem strptimeYmdDash_valid (cs : List Char) (e : Ymd)
    (h : strptimeYmdDash cs = some e) :
    validYmd e.year e.month e.day = true := by
  unfold strptimeYmdDash at h
  split at h
  · split at h
    · exact mkYmd_valid _ _ _ _ h
    · simp at h
  · simp at h

theorem strptimeMdySlash_valid (cs : List Char) (e : Ymd)
    (h : strptimeMdySlash cs = some e) :
    validYmd e.year e.month e.day = true := by
  unfold strptimeMdySlash at h
  split at h
  · split at h
    · exact mkYmd_valid _ _ _ _ h
    · simp at h
  · simp at h

theorem strptimeMdyDash_valid (cs : List Char) (e : Ymd)
    (h : strptimeMdyDash cs = some e) :
    validYmd e.year e.month e.day = true := by
  unfold strptimeMdyDash at h
  split at h
  · split at h
    · exact mkYmd_valid _ _ _ _ h
    · simp at h
  · simp at h

theorem strptimeDmySlash_valid (cs : List Char) (e : Ymd)
    (h : strptimeDmySlash cs = some e) :
    validYmd e.year e.month e.day = true := by
  unfold strptimeDmySlash at h
  split at h
  · split at h
    · exact mkYmd_valid _ _ _ _ h
    · simp at h
  · simp at h

theorem strptimeMonthName_valid (names : List (List Char)) (cs : List Char)
    (e : Ymd) (h : strptimeMonthName names cs = some e) :
    validYmd e.year e.month e.day = true := by
  unfold strptimeMonthName at h
  split at h
  · split at h
    · split at h
      · split at h
        · exact mkYmd_valid _ _ _ _ h
        · simp at h
      · simp at h
    · simp at h
  · simp at h

theorem tryFormats_valid (cs : List Char) (e : Ymd)
    (h : tryFormats cs = some e) :
    validYmd e.year e.month e.day = true := by
  unfold tryFormats at h
  rcases h1 : strptimeYmdDash cs with _ | d1
  · rw [h1] at h
    rcases h2 : strptimeMdySlash cs with _ | d2
    · rw [h2] at h
      rcases h3 : strptimeMdyDash cs with _ | d3
      · rw [h3] at h
        rcases h4 : strptimeDmySlash cs with _ | d4
        · rw [h4] at h
          rcases h5 : strptimeMonthName monthNamesFull cs with _ | d5
          · rw [h5] at h
            exact strptimeMonthName_valid monthNamesAbbr cs e h
          · rw [h5] at h
            cases h
            exact strptimeMonthName_valid monthNamesFull cs e h5
        · rw [h4] at h
          cases h
          exact strptimeDmySlash_valid cs e h4
      · rw [h3] at h
        cases h
        exact strptimeMdyDash_valid cs e h3
    · rw [h2] at h
      cases h
      exact strptimeMdySlash_valid cs e h2
  · rw [h1] at h
    cases h
    exact strptimeYmdDash_valid cs e h1

theorem validYmd_bounds (y m d : Nat) (hv : validYmd y m d = true) :
    1 ≤ y ∧ y ≤ 9999 ∧ 1 ≤ m ∧ m ≤ 12 ∧ 1 ≤ d ∧ d ≤ 31 := by
  have hdm : daysInMonth y m ≤ 31 := by
    unfold daysInMonth
    split_ifs <;> norm_num
  unfold validYmd at hv
  simp only [Bool.and_eq_true, decide_eq_true_eq] at hv
  omega

theorem tryFormats_strftime_high (y m d : Nat) (hv : validYmd y m d = true)
    (hy : 1000 ≤ y) :
    tryFormats (strftimeYmd ⟨y, m, d⟩) = some ⟨y, m, d⟩ := by
  obtain ⟨hy1, hy2, hm1, hm2, hd1, hd2⟩ := validYmd_bounds y m d hv
  have hfirst : strptimeYmdDash (strftimeYmd ⟨y, m, d⟩) = some ⟨y, m, d⟩ := by
    unfold strptimeYmdDash
    rw [splitC_strftime]
    dsimp only
    rw [yearTok_natChars y hy hy2, twoTok_pad2 m hm1 (by omega),
        twoTok_pad2 d hd1 (by omega)]
    simp [mkYmd, hv]
  unfold tryFormats
  rw [hfirst]

theorem tryFormats_strftime_low (y m d : Nat) (hv : validYmd y m d = true)
    (hy : y < 1000) :
    tryFormats (strftimeYmd ⟨y, m, d⟩) = Option.none := by
  obtain ⟨hy1, hy2, hm1, hm2, hd1, hd2⟩ := validYmd_bounds y m d hv
  have hslash := slash_not_mem_strftime y m d
  have hcomma := comma_not_mem_strftime y m d
  have h1 : strptimeYmdDash (strftimeYmd ⟨y, m, d⟩) = Option.none := by
    unfold strptimeYmdDash
    rw [splitC_strftime]
    dsimp only
    have hy4 : yearTok (natChars y) = Option.none := by
      apply yearTok_none_of_length
      have := natChars_length_le_three y hy
      omega
    rw [hy4]
  have h2 : strptimeMdySlash (strftimeYmd ⟨y, m, d⟩) = Option.none := by
    unfold strptimeMdySlash
    rw [splitC_of_not_mem '/' _ hslash]
  have h3 : strptimeMdyDash (strftimeYmd ⟨y, m, d⟩) = Option.none := by
    unfold strptimeMdyDash
    rw [splitC_strftime]
    dsimp only
    have hy4 : yearTok (pad2 d) = Option.none := by
      apply yearTok_none_of_length
      rw [pad2_length d hd1 (by omega)]
      omega
    rw [hy4]
  have h4 : strptimeDmySlash (strftimeYmd ⟨y, m, d⟩) = Option.none := by
    unfold strptimeDmySlash
    rw [splitC_of_not_mem '/' _ hslash]
  have h5 : strptimeMonthName monthNamesFull (strftimeYmd ⟨y, m, d⟩) =
      Option.none := by
    unfold strptimeMonthName
    rw [splitC_of_not_mem ',' _ hcomma]
  have h6 : strptimeMonthName monthNamesAbbr (strftimeYmd ⟨y, m, d⟩) =
      Option.none := by
    unfold strptimeMonthName
    rw [splitC_of_not_mem ',' _ hcomma]
  unfold tryFormats
  rw [h1, h2, h3, h4, h5, h6]

/-! ### C7 -/

/-- C7: field cleaning is idempotent for the number, date and boolean
field types: re-cleaning an already-cleaned value returns it unchanged. -/
theorem C7_clean_idempotent (value : PyVal) (field_type : String)
    (ht : field_type = "number" ∨ field_type = "date" ∨ field_type = "boolean") :
    _clean_value (_clean_value value field_type) field_type =
      _clean_value value field_type := by
  rcases ht with ht | ht | ht <;> subst ht
  · rcases value with _ | b | n | q | s | l | dd
    · rfl
    · rfl
    · rfl
    · rfl
    · rcases hp : pyFloat (s.data.filter (fun c => (!(c == '$') && !(c == ',')))) with _ | q
      · simp [_clean_value, Bool.not_or, hp]
      · simp [_clean_value, Bool.not_or, hp]
    · rfl
    · rfl
  · rcases value with _ | b | n | q | s | l | dd
    · rfl
    · rfl
    · rfl
    · rfl
    · rcases hf : tryFormats s.data with _ | d
      · simp [_clean_value, hf]
      · obtain ⟨yy, mm, dd2⟩ := d
        have hv := tryFormats_valid s.data ⟨yy, mm, dd2⟩ hf
        by_cases hy : 1000 ≤ yy
        · have hhi := tryFormats_strftime_high yy mm dd2 hv hy
          simp [_clean_value, hf, hhi]
        · have hlo := tryFormats_strftime_low yy mm dd2 hv (by omega)
          simp [_clean_value, hf, hlo]
    · rfl
    · rfl
  · rcases value with _ | b | n | q | s | l | dd
    · rfl
    · simp [_clean_value, py_truthy]
    · simp [_clean_value, py_truthy]
    · simp [_clean_value, py_truthy]
    · simp [_clean_value, py_truthy]
    · simp [_clean_value, py_truthy]
    · simp [_clean_value, py_truthy]

/-- C7 witness: re-cleaning the cleaned date `"01/15/2025"`, the cleaned
currency string `"$1,000,000"` and the cleaned boolean `"yes"` returns
them unchanged; the cleaned date is `"2025-01-15"`. -/
theorem C7_clean_idempotent_witness :
    (_clean_value (_clean_value (PyVal.str "01/15/2025") "date") "date" =
      _clean_value (PyVal.str "01/15/2025") "date")
    ∧ _clean_value (PyVal.str "01/15/2025") "date" = PyVal.str "2025-01-15"
    ∧ (_clean_value (_clean_value (PyVal.str "$1,000,000") "number") "number" =
      _clean_value (PyVal.str "$1,000,000") "number")
    ∧ (_clean_value (_clean_value (PyVal.str "yes") "boolean") "boolean" =
      _clean_value (PyVal.str "yes") "boolean") :=
  ⟨C7_clean_idempotent (PyVal.str "01/15/2025") "date" (Or.inr (Or.inl rfl)),
   by decide,
   C7_clean_idempotent (PyVal.str "$1,000,000") "number" (Or.inl rfl),
   C7_clean_idempotent (PyVal.str "yes") "boolean" (Or.inr (Or.inr rfl))⟩
